import Mathlib

/-
Verification of the transport core of ObsidianIRC (src-tauri/src/socket.rs):
frame decoding, read/write tasks, address parsing, and the connection
registry commands (connect, disconnect, send).

Bytes are modelled as natural numbers (the code works on u8 slices; the
values that matter here are 13 = CR and 10 = LF).  Rust strings are
modelled as lists of characters.  The per-connection registry (a
mutex-guarded HashMap) is modelled as an association list with
HashMap semantics: lookup finds the unique entry for a key, remove
filters it out, insert overwrites.
-/

set_option autoImplicit false

namespace ObsidianIRC

abbrev Bytes := List Nat

/-- Index of the first "\r\n" window in a byte buffer.  Embeds
`line_buffer.windows(2).position(|w| w == b"\r\n")` from read_task. -/
def findCRLF : Bytes → Option Nat
  | [] => none
  | [_] => none
  | a :: b :: rest =>
    if a = 13 ∧ b = 10 then some 0
    else (findCRLF (b :: rest)).map (· + 1)

/-- One pass of the frame-extraction loop of read_task, fuelled: each
iteration of the Rust loop removes pos + 2 ≥ 2 bytes from the buffer, so
a fuel equal to the buffer length can never be exhausted; theorem
extractFramesFuel_stable below shows the result is fuel-independent from
that point on.  Returns (frames emitted in order, remaining buffer). -/
def extractFramesFuel : Nat → Bytes → List Bytes × Bytes
  | 0, buf => ([], buf)
  | fuel + 1, buf =>
    match findCRLF buf with
    | some pos =>
      (buf.take (pos + 2) :: (extractFramesFuel fuel (buf.drop (pos + 2))).1,
       (extractFramesFuel fuel (buf.drop (pos + 2))).2)
    | none => ([], buf)

/-- The frame-extraction loop of read_task (lines 101-122 of socket.rs). -/
def extractFrames (buf : Bytes) : List Bytes × Bytes :=
  extractFramesFuel buf.length buf

/-- Feeding a chunk to the decoder: `line_buffer.extend_from_slice` followed
by the extraction loop. -/
def feed (buf bytes : Bytes) : List Bytes × Bytes :=
  extractFrames (buf ++ bytes)

/-- Concatenation of a list of frames back into a byte stream. -/
def joinAll : List Bytes → Bytes
  | [] => []
  | x :: xs => x ++ joinAll xs

/-- The event payload emitted on the "tcp-message" channel (socket.rs
struct MessageEvent): at most one of message, error, connected per field. -/
structure MessageEvent where
  message : Option Bytes
  error : Option String
  connected : Option Bool
deriving DecidableEq

/-- The payload sent back to the shell (socket.rs struct ReceivedPayload). -/
structure ReceivedPayload where
  id : String
  event : MessageEvent
deriving DecidableEq

/-- The cloneable sender half of the outbound mpsc queue; receiverAlive
records whether the write task still holds the receiving end. -/
structure Sender where
  receiverAlive : Bool
deriving DecidableEq

/-- socket.rs struct ConnectionHandle: outbound queue sender plus the
optional one-shot shutdown sender (none once taken). -/
structure ConnectionHandle where
  write_tx : Sender
  shutdown_tx : Option Unit
deriving DecidableEq

/-- The mutex-guarded HashMap of connections, as an association list with
unique keys: lookup finds the entry, remove filters it out. -/
abbrev Registry := List (String × ConnectionHandle)

def lookupReg (reg : Registry) (id : String) : Option ConnectionHandle :=
  (reg.find? (fun e => e.1 == id)).map (fun e => e.2)

def removeReg (reg : Registry) (id : String) : Registry :=
  reg.filter (fun e => e.1 != id)

def insertReg (reg : Registry) (id : String) (h : ConnectionHandle) : Registry :=
  (id, h) :: removeReg reg id

/-- Outcome of one reader.read call: ok with the bytes read (empty bytes is
the Ok(0) graceful close matched first by the Rust code) or an I/O error. -/
inductive ReadResult where
  | ok (bytes : Bytes)
  | failed (e : String)
deriving DecidableEq

/-- One iteration of the read_task loop (socket.rs lines 66-141): returns
the events emitted, the new frame buffer, the new registry, and whether the
loop continues. -/
def readTaskStep (client_id : String) (buf : Bytes) (reg : Registry) :
    ReadResult → List ReceivedPayload × Bytes × Registry × Bool
  | .ok bytes =>
    if bytes.isEmpty then
      ((if buf.isEmpty then [] else [⟨client_id, ⟨some buf, none, none⟩⟩]) ++
        [⟨client_id, ⟨none, none, some false⟩⟩],
       buf, removeReg reg client_id, false)
    else
      ((feed buf bytes).1.map (fun f => ⟨client_id, ⟨some f, none, none⟩⟩),
       (feed buf bytes).2, reg, true)
  | .failed e =>
    ([⟨client_id, ⟨none, some ("Read error: " ++ e), some false⟩⟩],
     buf, removeReg reg client_id, false)

/-- The read_task loop run over a sequence of read outcomes; the loop stops
at the first close or error, ignoring any later outcomes. -/
def runReadTask (client_id : String) (buf : Bytes) (reg : Registry) :
    List ReadResult → List ReceivedPayload × Bytes × Registry
  | [] => ([], buf, reg)
  | r :: rs =>
    let s := readTaskStep client_id buf reg r
    if s.2.2.2 then
      (s.1 ++ (runReadTask client_id s.2.1 s.2.2.1 rs).1,
       (runReadTask client_id s.2.1 s.2.2.1 rs).2)
    else
      (s.1, s.2.1, s.2.2.1)

/-- An event carries exactly one of the message, error, connected variants. -/
def exactlyOneVariant (ev : MessageEvent) : Bool :=
  (ev.message.isSome && ev.error.isNone && ev.connected.isNone) ||
  (ev.message.isNone && ev.error.isSome && ev.connected.isNone) ||
  (ev.message.isNone && ev.error.isNone && ev.connected.isSome)

/-- Split a string at the LAST colon (Rust str rsplit_once with a colon
pattern): (text before, text after), or nothing when no colon occurs. -/
def rsplitOnceColon : List Char → Option (List Char × List Char)
  | [] => none
  | c :: rest =>
    match rsplitOnceColon rest with
    | some (p, q) => some (c :: p, q)
    | none => if c = ':' then some ([], rest) else none

/-- The digit part accepted by the Rust u16 FromStr parser: an optional
leading plus sign is stripped. -/
def parseU16digits (s : List Char) : List Char :=
  match s with
  | '+' :: rest => rest
  | _ => s

/-- Rust str parse into u16: optional plus sign, one or more ASCII digits,
value below 2^16; anything else fails. -/
def parseU16 (s : List Char) : Option Nat :=
  if (!(parseU16digits s).isEmpty && (parseU16digits s).all Char.isDigit) then
    if (parseU16digits s).foldl (fun a c => a * 10 + (c.toNat - 48)) 0 < 65536 then
      some ((parseU16digits s).foldl (fun a c => a * 10 + (c.toNat - 48)) 0)
    else none
  else none

def ircsScheme : List Char := ['i', 'r', 'c', 's', ':', '/', '/']

def ircScheme : List Char := ['i', 'r', 'c', ':', '/', '/']

/-- Rust str strip of a leading scheme: the remainder when scheme leads s. -/
def stripScheme (scheme s : List Char) : Option (List Char) :=
  if scheme.isPrefixOf s then some (s.drop scheme.length) else none

/-- socket.rs parse_host_port (lines 326-338): split at the last colon; if
the trailing segment parses as a u16 it is the port, otherwise the whole
string is the host with the default port. -/
def parse_host_port (host_port : List Char) (default_port : Nat) :
    Except String (List Char × Nat) :=
  match rsplitOnceColon host_port with
  | some (host, port_str) =>
    match parseU16 port_str with
    | some port => .ok (host, port)
    | none => .ok (host_port, default_port)
  | none => .ok (host_port, default_port)

/-- socket.rs parse_address (lines 311-323). -/
def parse_address (address : List Char) : Except String (Bool × List Char × Nat) :=
  match stripScheme ircsScheme address with
  | some stripped =>
    match parse_host_port stripped 6697 with
    | .ok (host, port) => .ok (true, host, port)
    | .error e => .error e
  | none =>
    match stripScheme ircScheme address with
    | some stripped =>
      match parse_host_port stripped 6667 with
      | .ok (host, port) => .ok (false, host, port)
      | .error e => .error e
    | none =>
      match parse_host_port address 6667 with
      | .ok (host, port) => .ok (false, host, port)
      | .error e => .error e

def isOkE {α : Type} (r : Except String α) : Bool :=
  match r with
  | .ok _ => true
  | .error _ => false

def crlfChars : List Char := ['\r', '\n']

/-- write_task payload normalisation (socket.rs lines 156-161): append the
two-byte IRC line ending exactly when it is not already present. -/
def data_with_crlf (data : List Char) : List Char :=
  if crlfChars.isSuffixOf data then data else data ++ crlfChars

/-- Units written to the wire for a queue of payloads, in enqueue order. -/
def writeTaskWrites (queue : List (List Char)) : List (List Char) :=
  queue.map data_with_crlf

/-- socket.rs disconnect (lines 342-353): remove the entry for the id; when
one was present, take and fire its one-shot shutdown sender and succeed;
otherwise fail.  Returns (result, new registry, signal fired). -/
def disconnect (reg : Registry) (client_id : String) :
    Except String Unit × Registry × Bool :=
  match lookupReg reg client_id with
  | some handle =>
    (.ok (), removeReg reg client_id, handle.shutdown_tx.isSome)
  | none =>
    (.error ("No connection found for client_id: " ++ client_id), reg, false)

/-- Phase 1 of socket.rs send (lines 374-379), performed under the registry
lock: look up the handle for the id and clone its queue sender; nothing is
written to the registry. -/
def sendGetSender (reg : Registry) (client_id : String) : Option Sender :=
  (lookupReg reg client_id).map (fun h => h.write_tx)

/-- Phase 2 of socket.rs send (lines 381-389), performed after the lock is
released: the registry is not an argument; enqueue onto the cloned sender
or report the appropriate error.  Returns (result, new queue contents). -/
def sendEnqueue (tx : Option Sender) (client_id : String) (data : List Char)
    (queue : List (List Char)) : Except String Unit × List (List Char) :=
  match tx with
  | some sender =>
    if sender.receiverAlive then (.ok (), queue ++ [data])
    else (.error "Failed to send data: channel closed", queue)
  | none =>
    (.error ("No connection found for client_id: " ++ client_id), queue)

/-- socket.rs send: phase 1 under the lock, then phase 2 without it; the
registry is returned unchanged. -/
def send (reg : Registry) (client_id : String) (data : List Char)
    (queue : List (List Char)) :
    Except String Unit × Registry × List (List Char) :=
  ((sendEnqueue (sendGetSender reg client_id) client_id data queue).1, reg,
   (sendEnqueue (sendGetSender reg client_id) client_id data queue).2)

/-- Observable outcome of the connect command: its result, the registry
afterwards, whether the read and write tasks were spawned, and the events
emitted. -/
structure ConnectOutput where
  result : Except String Unit
  registry : Registry
  readSpawned : Bool
  writeSpawned : Bool
  events : List ReceivedPayload

/-- The handle stored by connect: a live queue sender and an unfired
one-shot shutdown sender. -/
def newHandle : ConnectionHandle := ⟨⟨true⟩, some ()⟩

/-- socket.rs connect (lines 184-308), desktop TLS backend: the network
outcomes (TCP connect, TLS connector construction, TLS handshake) enter as
oracle parameters; everything after the parse follows the code path:
failures return early with the formatted error and no effects; on success
both tasks are spawned, the handle is inserted and one connected = true
event is emitted. -/
def connect (client_id : String) (address : List Char)
    (tcp : Except String Unit) (tlsBuild : Except String Unit)
    (tlsShake : Except String Unit) (reg : Registry) : ConnectOutput :=
  match parse_address address with
  | .error e => ⟨.error e, reg, false, false, []⟩
  | .ok (use_tls, host, port) =>
    match tcp with
    | .error e =>
      ⟨.error ("Failed to connect to " ++ String.mk host ++ ":" ++
          Nat.repr port ++ ": " ++ e), reg, false, false, []⟩
    | .ok _ =>
      if use_tls then
        match tlsBuild with
        | .error e =>
          ⟨.error ("Failed to create TLS connector: " ++ e), reg, false, false, []⟩
        | .ok _ =>
          match tlsShake with
          | .error e =>
            ⟨.error ("TLS handshake failed: " ++ e), reg, false, false, []⟩
          | .ok _ =>
            ⟨.ok (), insertReg reg client_id newHandle, true, true,
             [⟨client_id, ⟨none, none, some true⟩⟩]⟩
      else
        ⟨.ok (), insertReg reg client_id newHandle, true, true,
         [⟨client_id, ⟨none, none, some true⟩⟩]⟩

theorem findCRLF_bound : ∀ (buf : Bytes) (pos : Nat), findCRLF buf = some pos →
    pos + 2 ≤ buf.length := by
  intro buf
  induction buf with
  | nil => intro pos h; simp [findCRLF] at h
  | cons a rest ih =>
    cases rest with
    | nil => intro pos h; simp [findCRLF] at h
    | cons b rest2 =>
      intro pos h
      simp only [findCRLF] at h
      by_cases hc : a = 13 ∧ b = 10
      · rw [if_pos hc] at h
        injection h with h0
        simp [List.length]
        omega
      · rw [if_neg hc] at h
        rcases Option.map_eq_some'.mp h with ⟨p, hp, hpp⟩
        have hb := ih p hp
        simp [List.length] at hb ⊢
        omega

theorem findCRLF_take : ∀ (buf : Bytes) (pos : Nat), findCRLF buf = some pos →
    findCRLF (buf.take (pos + 2)) = some pos := by
  intro buf
  induction buf with
  | nil => intro pos h; simp [findCRLF] at h
  | cons a rest ih =>
    cases rest with
    | nil => intro pos h; simp [findCRLF] at h
    | cons b rest2 =>
      intro pos h
      simp only [findCRLF] at h
      by_cases hc : a = 13 ∧ b = 10
      · rw [if_pos hc] at h
        injection h with h0
        subst h0
        show findCRLF ((a :: b :: rest2).take 2) = some 0
        rw [List.take_succ_cons, List.take_succ_cons, List.take_zero]
        simp [findCRLF, hc]
      · rw [if_neg hc] at h
        rcases Option.map_eq_some'.mp h with ⟨p, hp, hpp⟩
        subst hpp
        have ht : List.take (p + 2) (b :: rest2) = b :: List.take (p + 1) rest2 :=
          List.take_succ_cons
        have ihp := ih p hp
        rw [ht] at ihp
        have ht2 : List.take (p + 1 + 2) (a :: b :: rest2) =
            a :: List.take (p + 2) (b :: rest2) := List.take_succ_cons
        rw [ht2, ht]
        simp only [findCRLF]
        rw [if_neg hc, ihp]
        rfl

theorem findCRLF_none_append : ∀ (l l2 : Bytes), findCRLF (l ++ l2) = none →
    findCRLF l = none := by
  intro l
  induction l with
  | nil => intro l2 h; simp [findCRLF]
  | cons a rest ih =>
    cases rest with
    | nil => intro l2 h; simp [findCRLF]
    | cons b rest2 =>
      intro l2 h
      simp only [List.cons_append] at h
      simp only [findCRLF] at h ⊢
      by_cases hc : a = 13 ∧ b = 10
      · rw [if_pos hc] at h
        exact absurd h (by simp)
      · rw [if_neg hc] at h ⊢
        rw [Option.map_eq_none'] at h ⊢
        exact ih l2 (by simpa using h)

theorem extractFramesFuel_spec : ∀ (fuel : Nat) (buf : Bytes), buf.length ≤ fuel →
    joinAll (extractFramesFuel fuel buf).1 ++ (extractFramesFuel fuel buf).2 = buf ∧
    (∀ f ∈ (extractFramesFuel fuel buf).1,
      2 ≤ f.length ∧ findCRLF f = some (f.length - 2)) ∧
    findCRLF (extractFramesFuel fuel buf).2 = none := by
  intro fuel
  induction fuel with
  | zero =>
    intro buf hlen
    have hb : buf = [] := List.eq_nil_of_length_eq_zero (Nat.le_zero.mp hlen)
    subst hb
    simp [extractFramesFuel, joinAll, findCRLF]
  | succ n ih =>
    intro buf hlen
    cases hf : findCRLF buf with
    | none =>
      simp [extractFramesFuel, hf, joinAll]
    | some pos =>
      have hb := findCRLF_bound buf pos hf
      have hlen2 : (buf.drop (pos + 2)).length ≤ n := by
        rw [List.length_drop]; omega
      obtain ⟨ih1, ih2, ih3⟩ := ih (buf.drop (pos + 2)) hlen2
      refine ⟨?_, ?_, ?_⟩
      · simp only [extractFramesFuel, hf, joinAll]
        rw [List.append_assoc, ih1, List.take_append_drop]
      · intro f hfmem
        simp only [extractFramesFuel, hf, List.mem_cons] at hfmem
        rcases hfmem with h1 | h2
        · subst h1
          have hlt : (buf.take (pos + 2)).length = pos + 2 := by
            simp [List.length_take]; omega
          refine ⟨by omega, ?_⟩
          rw [hlt]
          simpa using findCRLF_take buf pos hf
        · exact ih2 f h2
      · simp only [extractFramesFuel, hf]
        exact ih3

/-- The fuel bound is immaterial: any fuel at least the buffer length gives
the same result as the canonical run, so the fuelled function is a faithful
rendering of the unbounded Rust loop. -/
theorem extractFramesFuel_stable : ∀ (fuel : Nat) (buf : Bytes), buf.length ≤ fuel →
    extractFramesFuel fuel buf = extractFrames buf := by
  have key : ∀ (f1 : Nat), ∀ (f2 : Nat) (buf : Bytes),
      buf.length ≤ f1 → buf.length ≤ f2 →
      extractFramesFuel f1 buf = extractFramesFuel f2 buf := by
    intro f1
    induction f1 with
    | zero =>
      intro f2 buf h1 h2
      have hb : buf = [] := List.eq_nil_of_length_eq_zero (Nat.le_zero.mp h1)
      subst hb
      cases f2 with
      | zero => rfl
      | succ m => simp [extractFramesFuel, findCRLF]
    | succ n ih =>
      intro f2 buf h1 h2
      cases hf : findCRLF buf with
      | none =>
        cases f2 with
        | zero =>
          have hb : buf = [] := List.eq_nil_of_length_eq_zero (Nat.le_zero.mp h2)
          subst hb
          simp [extractFramesFuel, findCRLF]
        | succ m => simp [extractFramesFuel, hf]
      | some pos =>
        have hb := findCRLF_bound buf pos hf
        cases f2 with
        | zero => omega
        | succ m =>
          have hd : (buf.drop (pos + 2)).length ≤ n := by
            rw [List.length_drop]; omega
          have hd2 : (buf.drop (pos + 2)).length ≤ m := by
            rw [List.length_drop]; omega
          simp only [extractFramesFuel, hf]
          rw [ih m (buf.drop (pos + 2)) hd hd2]
  intro fuel buf h
  exact key fuel buf.length buf h le_rfl

/-- C1: frames emitted by the decoder are exactly the successive
terminator-delimited lines of the accumulated stream: every frame ends with
the first "\r\n" it contains, the frames in order followed by the remaining
buffer reconstitute the whole input, the remainder holds no terminator, and
feeding "A\r\nB\r\nC" then "\r\n" yields the frames "A\r\n", "B\r\n" and
then "C\r\n". -/
theorem frame_decoder_lines :
    (∀ buf bytes : Bytes,
      joinAll (feed buf bytes).1 ++ (feed buf bytes).2 = buf ++ bytes ∧
      (∀ f ∈ (feed buf bytes).1, 2 ≤ f.length ∧ findCRLF f = some (f.length - 2)) ∧
      findCRLF (feed buf bytes).2 = none) ∧
    feed [] [65, 13, 10, 66, 13, 10, 67] = ([[65, 13, 10], [66, 13, 10]], [67]) ∧
    feed [67] [13, 10] = ([[67, 13, 10]], []) := by
  refine ⟨?_, by decide, by decide⟩
  intro buf bytes
  exact extractFramesFuel_spec (buf ++ bytes).length (buf ++ bytes) le_rfl

theorem frame_decoder_lines_witness :
    2 ≤ ([66, 13, 10] : Bytes).length ∧
    findCRLF ([66, 13, 10] : Bytes) = some (([66, 13, 10] : Bytes).length - 2) :=
  (frame_decoder_lines.1 [] [65, 13, 10, 66, 13, 10, 67]).2.1 [66, 13, 10] (by decide)

theorem extractFrames_none (l : Bytes) (h : findCRLF l = none) :
    extractFrames l = ([], l) := by
  unfold extractFrames
  cases hl : l.length with
  | zero => simp [extractFramesFuel]
  | succ n => simp [extractFramesFuel, h]

theorem lookupReg_removeReg (reg : Registry) (id : String) :
    lookupReg (removeReg reg id) id = none := by
  unfold lookupReg removeReg
  rw [Option.map_eq_none', List.find?_eq_none]
  intro x hx
  rw [List.mem_filter] at hx
  simpa using hx.2

theorem runReadTask_no_crlf : ∀ (chunks : List Bytes) (client_id : String)
    (buf : Bytes) (reg : Registry),
    (∀ c ∈ chunks, c ≠ []) → findCRLF (buf ++ joinAll chunks) = none →
    runReadTask client_id buf reg (chunks.map .ok ++ [.ok []]) =
      ((if (buf ++ joinAll chunks).isEmpty then [] else
          [⟨client_id, ⟨some (buf ++ joinAll chunks), none, none⟩⟩]) ++
        [⟨client_id, ⟨none, none, some false⟩⟩],
       buf ++ joinAll chunks, removeReg reg client_id) := by
  intro chunks
  induction chunks with
  | nil =>
    intro client_id buf reg hne hcrlf
    simp [joinAll, runReadTask, readTaskStep]
  | cons c cs ih =>
    intro client_id buf reg hne hcrlf
    have hc : c ≠ [] := hne c (List.mem_cons_self c cs)
    have hcempty : c.isEmpty = false := by
      cases c with
      | nil => exact absurd rfl hc
      | cons x xs => rfl
    have hassoc : buf ++ joinAll (c :: cs) = (buf ++ c) ++ joinAll cs := by
      simp [joinAll, List.append_assoc]
    have hnone2 : findCRLF ((buf ++ c) ++ joinAll cs) = none := by
      rw [← hassoc]; exact hcrlf
    have hnone : findCRLF (buf ++ c) = none := findCRLF_none_append _ _ hnone2
    have hfeed : feed buf c = ([], buf ++ c) := extractFrames_none _ hnone
    have hrest := ih client_id (buf ++ c) reg
      (fun x hx => hne x (List.mem_cons_of_mem c hx)) hnone2
    simp only [List.map_cons, List.cons_append, runReadTask, readTaskStep,
      hcempty, Bool.false_eq_true, if_false, hfeed, List.map_nil, List.nil_append,
      if_true, List.append_eq, Prod.mk.eta]
    rw [hrest, hassoc]

/-- C2: on a zero-byte read (graceful stream end) the read task first
flushes any nonempty unterminated remainder of the frame buffer as one
final message frame (no message event when the buffer is empty), then
emits a disconnected event, removes the connection from the registry and
stops; hence a stream never containing the terminator, followed by stream
end, yields exactly one final frame equal to all bytes fed. -/
theorem read_close_flush :
    (∀ (client_id : String) (buf : Bytes) (reg : Registry) (rs : List ReadResult),
      runReadTask client_id buf reg (.ok [] :: rs) =
        ((if buf.isEmpty then [] else [⟨client_id, ⟨some buf, none, none⟩⟩]) ++
          [⟨client_id, ⟨none, none, some false⟩⟩],
         buf, removeReg reg client_id) ∧
      lookupReg (removeReg reg client_id) client_id = none) ∧
    (∀ (client_id : String) (reg : Registry) (chunks : List Bytes),
      (∀ c ∈ chunks, c ≠ []) → findCRLF (joinAll chunks) = none →
      joinAll chunks ≠ [] →
      runReadTask client_id [] reg (chunks.map .ok ++ [.ok []]) =
        ([⟨client_id, ⟨some (joinAll chunks), none, none⟩⟩,
          ⟨client_id, ⟨none, none, some false⟩⟩],
         joinAll chunks, removeReg reg client_id)) := by
  constructor
  · intro client_id buf reg rs
    refine ⟨?_, lookupReg_removeReg reg client_id⟩
    simp [runReadTask, readTaskStep]
  · intro client_id reg chunks hne hcrlf hjoin
    have h := runReadTask_no_crlf chunks client_id [] reg hne (by simpa using hcrlf)
    have hempty : (([] : Bytes) ++ joinAll chunks).isEmpty = false := by
      cases hj : joinAll chunks with
      | nil => exact absurd hj hjoin
      | cons x xs => rfl
    rw [h, hempty]
    simp

theorem read_close_flush_witness :
    runReadTask "c" [] [] ([[80]].map ReadResult.ok ++ [.ok []]) =
      ([⟨"c", ⟨some (joinAll [[80]]), none, none⟩⟩,
        ⟨"c", ⟨none, none, some false⟩⟩],
       joinAll [[80]], removeReg [] "c") :=
  read_close_flush.2 "c" [] [[80]] (by decide) (by decide) (by decide)

/-- C10: on a read error the task discards any unterminated buffered bytes
(no message event carries them), emits a single event holding the error
description together with connected = false, removes the registry entry and
stops (later read outcomes are never processed). -/
theorem read_error_discard :
    ∀ (client_id : String) (buf : Bytes) (reg : Registry) (e : String)
      (rs : List ReadResult),
      runReadTask client_id buf reg (.failed e :: rs) =
        ([⟨client_id, ⟨none, some ("Read error: " ++ e), some false⟩⟩],
         buf, removeReg reg client_id) ∧
      (∀ ev ∈ (runReadTask client_id buf reg (.failed e :: rs)).1,
        ev.event.message = none ∧ ev.event.error = some ("Read error: " ++ e) ∧
        ev.event.connected = some false) ∧
      lookupReg (removeReg reg client_id) client_id = none := by
  intro client_id buf reg e rs
  refine ⟨by simp [runReadTask, readTaskStep], ?_, lookupReg_removeReg reg client_id⟩
  intro ev hev
  simp [runReadTask, readTaskStep] at hev
  subst hev
  exact ⟨rfl, rfl, rfl⟩

theorem read_error_discard_witness :
    (⟨"c", ⟨none, some ("Read error: " ++ "boom"), some false⟩⟩ :
        ReceivedPayload).event.message = none ∧
    (⟨"c", ⟨none, some ("Read error: " ++ "boom"), some false⟩⟩ :
        ReceivedPayload).event.error = some ("Read error: " ++ "boom") ∧
    (⟨"c", ⟨none, some ("Read error: " ++ "boom"), some false⟩⟩ :
        ReceivedPayload).event.connected = some false :=
  (read_error_discard "c" [1] [] "boom" []).2.1
    ⟨"c", ⟨none, some ("Read error: " ++ "boom"), some false⟩⟩ (by decide)

theorem isPrefixOf_append_self : ∀ (l1 l2 : List Char),
    List.isPrefixOf l1 (l1 ++ l2) = true := by
  intro l1 l2
  induction l1 with
  | nil => simp
  | cons a rest ih => simp [List.isPrefixOf, ih]

theorem crlf_isSuffixOf_append (l : List Char) :
    List.isSuffixOf crlfChars (l ++ crlfChars) = true := by
  unfold List.isSuffixOf
  rw [List.reverse_append]
  exact isPrefixOf_append_self crlfChars.reverse l.reverse

theorem rsplitOnceColon_of_no_colon : ∀ (s : List Char), ':' ∉ s →
    rsplitOnceColon s = none := by
  intro s
  induction s with
  | nil => intro h; rfl
  | cons c rest ih =>
    intro h
    have h1 : ':' ∉ rest := fun hx => h (List.mem_cons_of_mem c hx)
    have h2 : ¬(c = ':') := fun hx => h (by rw [hx]; exact List.mem_cons_self ':' rest)
    rw [show rsplitOnceColon (c :: rest) = (match rsplitOnceColon rest with
        | some (p, q) => some (c :: p, q)
        | none => if c = ':' then some ([], rest) else none) from rfl,
      ih h1]
    exact if_neg h2

theorem rsplitOnceColon_last : ∀ (a b : List Char), ':' ∉ b →
    rsplitOnceColon (a ++ ':' :: b) = some (a, b) := by
  intro a
  induction a with
  | nil =>
    intro b hb
    rw [List.nil_append]
    rw [show rsplitOnceColon (':' :: b) = (match rsplitOnceColon b with
        | some (p, q) => some (':' :: p, q)
        | none => if ':' = ':' then some ([], b) else none) from rfl,
      rsplitOnceColon_of_no_colon b hb]
    simp
  | cons c a2 ih =>
    intro b hb
    rw [List.cons_append]
    rw [show rsplitOnceColon (c :: (a2 ++ ':' :: b)) =
        (match rsplitOnceColon (a2 ++ ':' :: b) with
        | some (p, q) => some (c :: p, q)
        | none => if c = ':' then some ([], a2 ++ ':' :: b) else none) from rfl,
      ih b hb]

theorem parseU16_lt : ∀ (s : List Char) (p : Nat), parseU16 s = some p →
    p < 65536 := by
  intro s p h
  unfold parseU16 at h
  by_cases h1 : (!(parseU16digits s).isEmpty &&
      (parseU16digits s).all Char.isDigit) = true
  · rw [if_pos h1] at h
    by_cases h2 : (parseU16digits s).foldl (fun a c => a * 10 + (c.toNat - 48)) 0 < 65536
    · rw [if_pos h2] at h
      injection h with h3
      omega
    · rw [if_neg h2] at h
      exact absurd h (by simp)
  · rw [if_neg h1] at h
    exact absurd h (by simp)

theorem stripScheme_append (scheme rest : List Char) :
    stripScheme scheme (scheme ++ rest) = some rest := by
  unfold stripScheme
  rw [if_pos (isPrefixOf_append_self scheme rest), List.drop_left]

theorem ircs_not_lead_irc (rest : List Char) :
    List.isPrefixOf ircsScheme (ircScheme ++ rest) = false := rfl

theorem stripScheme_ircs_irc (rest : List Char) :
    stripScheme ircsScheme (ircScheme ++ rest) = none := by
  unfold stripScheme
  rw [ircs_not_lead_irc]
  rfl

/-- C3: parse_address maps a string to (encrypted, host, port): an ircs
scheme yields TLS with default port 6697, an irc scheme yields plain TCP
with default 6667, and no recognized scheme yields plain TCP with default
6667; parse_host_port splits at the last colon, the trailing segment
becomes the port exactly when it parses as an unsigned 16-bit integer
(always below 2^16), and otherwise the whole string is the host with the
default port, as in "host:notaport". -/
theorem parse_address_spec :
    (∀ (rest h : List Char) (p : Nat), parse_host_port rest 6697 = .ok (h, p) →
      parse_address (ircsScheme ++ rest) = .ok (true, h, p)) ∧
    (∀ (rest h : List Char) (p : Nat), parse_host_port rest 6667 = .ok (h, p) →
      parse_address (ircScheme ++ rest) = .ok (false, h, p)) ∧
    (∀ (a h : List Char) (p : Nat), stripScheme ircsScheme a = none →
      stripScheme ircScheme a = none → parse_host_port a 6667 = .ok (h, p) →
      parse_address a = .ok (false, h, p)) ∧
    (∀ (host port_str : List Char) (d : Nat), ':' ∉ port_str →
      parse_host_port (host ++ ':' :: port_str) d =
        .ok (match parseU16 port_str with
          | some p => (host, p)
          | none => (host ++ ':' :: port_str, d))) ∧
    (∀ (s : List Char) (d : Nat), ':' ∉ s → parse_host_port s d = .ok (s, d)) ∧
    (∀ (t : List Char) (p : Nat), parseU16 t = some p → p < 65536) ∧
    parse_address ("host:notaport".toList) =
      .ok (false, "host:notaport".toList, 6667) := by
  refine ⟨?_, ?_, ?_, ?_, ?_, parseU16_lt, by rfl⟩
  · intro rest h p hpp
    simp only [parse_address, stripScheme_append, hpp]
  · intro rest h p hpp
    simp only [parse_address, stripScheme_ircs_irc, stripScheme_append, hpp]
  · intro a h p h1 h2 hpp
    simp only [parse_address, h1, h2, hpp]
  · intro host port_str d hnc
    cases hq : parseU16 port_str with
    | none =>
      simp only [parse_host_port, rsplitOnceColon_last host port_str hnc, hq]
    | some v =>
      simp only [parse_host_port, rsplitOnceColon_last host port_str hnc, hq]
  · intro s d hnc
    simp only [parse_host_port, rsplitOnceColon_of_no_colon s hnc]

theorem parse_address_spec_witness :
    parse_address (ircsScheme ++ "irc.example.org".toList) =
      .ok (true, "irc.example.org".toList, 6697) :=
  parse_address_spec.1 "irc.example.org".toList "irc.example.org".toList 6697
    (by rfl)

/-- C4 counterexample: the inputs "irc://" and ":6667" both parse to an
empty host, yet parsing succeeds instead of returning the InvalidAddress
error the claim requires. -/
theorem parse_empty_host_counterexample :
    parse_address ['i', 'r', 'c', ':', '/', '/'] = .ok (false, [], 6667) ∧
    parse_address [':', '6', '6', '6', '7'] = .ok (false, [], 6667) := by
  exact ⟨rfl, rfl⟩

/-- C4 amended: address parsing never fails: parse_host_port returns ok on
every input and default port, so parse_address returns ok on every input;
in particular an input whose parse yields an empty host (such as "irc://"
or ":6667") succeeds with the empty host rather than failing, and every
parse with a non-empty host succeeds as well. -/
theorem parse_never_fails :
    (∀ (s : List Char) (d : Nat), isOkE (parse_host_port s d) = true) ∧
    (∀ (a : List Char), isOkE (parse_address a) = true) := by
  have hp : ∀ (s : List Char) (d : Nat), isOkE (parse_host_port s d) = true := by
    intro s d
    cases hr : rsplitOnceColon s with
    | none => simp [parse_host_port, hr, isOkE]
    | some pq =>
      cases pq with
      | mk p q =>
        cases hq : parseU16 q with
        | none => simp [parse_host_port, hr, hq, isOkE]
        | some v => simp [parse_host_port, hr, hq, isOkE]
  refine ⟨hp, ?_⟩
  intro a
  cases h1 : stripScheme ircsScheme a with
  | some s =>
    have hs := hp s 6697
    cases hpp : parse_host_port s 6697 with
    | ok v =>
      cases v with
      | mk vh vp => simp [parse_address, h1, hpp, isOkE]
    | error e => rw [hpp] at hs; exact absurd hs (by simp [isOkE])
  | none =>
    cases h2 : stripScheme ircScheme a with
    | some s =>
      have hs := hp s 6667
      cases hpp : parse_host_port s 6667 with
      | ok v =>
        cases v with
        | mk vh vp => simp [parse_address, h1, h2, hpp, isOkE]
      | error e => rw [hpp] at hs; exact absurd hs (by simp [isOkE])
    | none =>
      have hs := hp a 6667
      cases hpp : parse_host_port a 6667 with
      | ok v =>
        cases v with
        | mk vh vp => simp [parse_address, h1, h2, hpp, isOkE]
      | error e => rw [hpp] at hs; exact absurd hs (by simp [isOkE])

/-- C6: each payload taken from the outbound queue is written unchanged
when it already ends with the two-byte terminator and with the terminator
appended otherwise; every written unit therefore ends with the terminator,
the terminator is appended at most once (normalisation is idempotent), and
queued payloads are written in enqueue order so normalised. -/
theorem write_appends_terminator :
    ∀ data : List Char,
      (List.isSuffixOf crlfChars data = true → data_with_crlf data = data) ∧
      (List.isSuffixOf crlfChars data = false →
        data_with_crlf data = data ++ crlfChars) ∧
      List.isSuffixOf crlfChars (data_with_crlf data) = true ∧
      data_with_crlf (data_with_crlf data) = data_with_crlf data := by
  intro data
  by_cases h : List.isSuffixOf crlfChars data = true
  · refine ⟨fun _ => ?_, fun hf => absurd h (by simp [hf]), ?_, ?_⟩ <;>
      simp [data_with_crlf, h]
  · have hf : List.isSuffixOf crlfChars data = false := by
      cases hx : List.isSuffixOf crlfChars data
      · rfl
      · exact absurd hx h
    have hsuffix := crlf_isSuffixOf_append data
    refine ⟨fun ht => absurd ht h, fun _ => ?_, ?_, ?_⟩
    · simp [data_with_crlf, hf]
    · simp [data_with_crlf, hf, hsuffix]
    · simp [data_with_crlf, hf, hsuffix]

theorem write_appends_terminator_witness :
    List.isSuffixOf crlfChars ['P', 'I', 'N', 'G'] = false ∧
    data_with_crlf ['P', 'I', 'N', 'G'] = ['P', 'I', 'N', 'G'] ++ crlfChars :=
  ⟨by decide, (write_appends_terminator ['P', 'I', 'N', 'G']).2.1 (by decide)⟩

theorem lookupReg_insertReg (reg : Registry) (id : String) (h : ConnectionHandle) :
    lookupReg (insertReg reg id h) id = some h := by
  simp [lookupReg, insertReg, List.find?_cons]

theorem runReadTask_cons (client_id : String) (buf : Bytes) (reg : Registry)
    (r : ReadResult) (rs : List ReadResult) :
    runReadTask client_id buf reg (r :: rs) =
      (if (readTaskStep client_id buf reg r).2.2.2 then
        ((readTaskStep client_id buf reg r).1 ++
          (runReadTask client_id (readTaskStep client_id buf reg r).2.1
            (readTaskStep client_id buf reg r).2.2.1 rs).1,
         (runReadTask client_id (readTaskStep client_id buf reg r).2.1
            (readTaskStep client_id buf reg r).2.2.1 rs).2)
      else
        ((readTaskStep client_id buf reg r).1,
         (readTaskStep client_id buf reg r).2.1,
         (readTaskStep client_id buf reg r).2.2.1)) := rfl

/-- C7: disconnect removes the registry entry for the id; when an entry is
present its one-shot shutdown signal is fired and the call succeeds; when
the id is absent the call fails with the unknown-connection error and
leaves the registry unchanged; hence two disconnects in a row with no
intervening connect succeed the first time and fail the second time. -/
theorem disconnect_spec :
    ∀ (reg : Registry) (client_id : String),
      (∀ h : ConnectionHandle, lookupReg reg client_id = some h →
        disconnect reg client_id =
          (.ok (), removeReg reg client_id, h.shutdown_tx.isSome) ∧
        (h.shutdown_tx = some () → (disconnect reg client_id).2.2 = true) ∧
        lookupReg (disconnect reg client_id).2.1 client_id = none ∧
        (disconnect (disconnect reg client_id).2.1 client_id).1 =
          .error ("No connection found for client_id: " ++ client_id)) ∧
      (lookupReg reg client_id = none →
        disconnect reg client_id =
          (.error ("No connection found for client_id: " ++ client_id),
           reg, false)) := by
  intro reg client_id
  constructor
  · intro h hl
    have h1 : disconnect reg client_id =
        (.ok (), removeReg reg client_id, h.shutdown_tx.isSome) := by
      simp only [disconnect, hl]
    have h2 : lookupReg (removeReg reg client_id) client_id = none :=
      lookupReg_removeReg reg client_id
    refine ⟨h1, ?_, ?_, ?_⟩
    · intro hs
      rw [h1, hs]
      rfl
    · rw [h1]
      exact h2
    · rw [h1]
      simp only [disconnect, h2]
  · intro hl
    simp only [disconnect, hl]

theorem disconnect_spec_witness :
    disconnect [("a", ⟨⟨true⟩, some ()⟩)] "a" =
      (.ok (), removeReg [("a", ⟨⟨true⟩, some ()⟩)] "a", true) :=
  ((disconnect_spec [("a", ⟨⟨true⟩, some ()⟩)] "a").1 ⟨⟨true⟩, some ()⟩ rfl).1

/-- C8: send looks up and clones the queue sender under the registry lock
(phase 1, which does not modify the registry) and enqueues only after the
lock is released (phase 2, which does not receive the registry at all); it
fails with the unknown-connection error when the id is absent, fails with
the queue-closed error when the write task has dropped the receiver, and
otherwise appends the payload to the queue and succeeds; the registry is
unchanged in every case. -/
theorem send_spec :
    ∀ (reg : Registry) (client_id : String) (data : List Char)
      (queue : List (List Char)),
      (send reg client_id data queue).2.1 = reg ∧
      (send reg client_id data queue).1 =
        (sendEnqueue (sendGetSender reg client_id) client_id data queue).1 ∧
      (lookupReg reg client_id = none →
        send reg client_id data queue =
          (.error ("No connection found for client_id: " ++ client_id),
           reg, queue)) ∧
      (∀ h : ConnectionHandle, lookupReg reg client_id = some h →
        h.write_tx.receiverAlive = false →
        send reg client_id data queue =
          (.error "Failed to send data: channel closed", reg, queue)) ∧
      (∀ h : ConnectionHandle, lookupReg reg client_id = some h →
        h.write_tx.receiverAlive = true →
        send reg client_id data queue = (.ok (), reg, queue ++ [data])) := by
  intro reg client_id data queue
  refine ⟨rfl, rfl, ?_, ?_, ?_⟩
  · intro hl
    simp only [send, sendGetSender, sendEnqueue, hl, Option.map_none']
  · intro h hl hdead
    simp only [send, sendGetSender, sendEnqueue, hl, Option.map_some', hdead,
      Bool.false_eq_true, if_false]
  · intro h hl halive
    simp only [send, sendGetSender, sendEnqueue, hl, Option.map_some', halive,
      if_true]

theorem send_spec_witness :
    send [("a", ⟨⟨true⟩, some ()⟩)] "a" ['h', 'i'] [] =
      (.ok (), [("a", ⟨⟨true⟩, some ()⟩)], [] ++ [['h', 'i']]) :=
  (send_spec [("a", ⟨⟨true⟩, some ()⟩)] "a" ['h', 'i'] []).2.2.2.2
    ⟨⟨true⟩, some ()⟩ rfl rfl

/-- C9: whenever connect fails (address error, TCP connection failure, TLS
connector construction failure, or TLS handshake failure) the error is the
synchronous command result and no registry entry is inserted, no read or
write task is spawned and no event is emitted; on success the handle is
inserted (and found by a lookup), both tasks are spawned, and exactly one
connected = true event is emitted. -/
theorem connect_spec :
    ∀ (client_id : String) (address : List Char)
      (tcp tlsBuild tlsShake : Except String Unit) (reg : Registry),
      (isOkE (connect client_id address tcp tlsBuild tlsShake reg).result = false →
        (connect client_id address tcp tlsBuild tlsShake reg).registry = reg ∧
        (connect client_id address tcp tlsBuild tlsShake reg).readSpawned = false ∧
        (connect client_id address tcp tlsBuild tlsShake reg).writeSpawned = false ∧
        (connect client_id address tcp tlsBuild tlsShake reg).events = []) ∧
      (isOkE (connect client_id address tcp tlsBuild tlsShake reg).result = true →
        (connect client_id address tcp tlsBuild tlsShake reg).registry =
          insertReg reg client_id newHandle ∧
        (connect client_id address tcp tlsBuild tlsShake reg).readSpawned = true ∧
        (connect client_id address tcp tlsBuild tlsShake reg).writeSpawned = true ∧
        (connect client_id address tcp tlsBuild tlsShake reg).events =
          [⟨client_id, ⟨none, none, some true⟩⟩] ∧
        lookupReg (connect client_id address tcp tlsBuild tlsShake reg).registry
          client_id = some newHandle) := by
  intro client_id address tcp tlsBuild tlsShake reg
  cases hp : parse_address address with
  | error e =>
    constructor
    · intro _
      simp [connect, hp]
    · intro hok
      simp [connect, hp, isOkE] at hok
  | ok v =>
    obtain ⟨use_tls, host, port⟩ := v
    cases tcp with
    | error e =>
      constructor
      · intro _
        simp [connect, hp]
      · intro hok
        simp [connect, hp, isOkE] at hok
    | ok u =>
      cases use_tls with
      | false =>
        constructor
        · intro hbad
          simp [connect, hp, isOkE] at hbad
        · intro _
          simp [connect, hp, lookupReg_insertReg]
      | true =>
        cases tlsBuild with
        | error e =>
          constructor
          · intro _
            simp [connect, hp]
          · intro hok
            simp [connect, hp, isOkE] at hok
        | ok u2 =>
          cases tlsShake with
          | error e =>
            constructor
            · intro _
              simp [connect, hp]
            · intro hok
              simp [connect, hp, isOkE] at hok
          | ok u3 =>
            constructor
            · intro hbad
              simp [connect, hp, isOkE] at hbad
            · intro _
              simp [connect, hp, lookupReg_insertReg]

theorem connect_spec_witness :
    (connect "c" [] (.ok ()) (.ok ()) (.ok ()) []).registry =
      insertReg [] "c" newHandle ∧
    (connect "c" [] (.ok ()) (.ok ()) (.ok ()) []).readSpawned = true ∧
    (connect "c" [] (.ok ()) (.ok ()) (.ok ()) []).writeSpawned = true ∧
    (connect "c" [] (.ok ()) (.ok ()) (.ok ()) []).events =
      [⟨"c", ⟨none, none, some true⟩⟩] ∧
    lookupReg (connect "c" [] (.ok ()) (.ok ()) (.ok ()) []).registry "c" =
      some newHandle :=
  (connect_spec "c" [] (.ok ()) (.ok ()) (.ok ()) []).2 rfl

/-- C5 counterexample: on the read-error path the task emits a single event
carrying BOTH an error description and connected = false, so it is false
that every emitted event carries exactly one of the three variants with the
other two absent. -/
theorem event_exactly_one_counterexample :
    (runReadTask "c" [] [] [.failed "boom"]).1 =
      [⟨"c", ⟨none, some ("Read error: " ++ "boom"), some false⟩⟩] ∧
    exactlyOneVariant ⟨none, some ("Read error: " ++ "boom"), some false⟩ =
      false := ⟨rfl, rfl⟩

/-- C5 amended: every event emitted by a read-task run or by connect
carries the originating client id; the frame-delivery, final-flush,
graceful-close-disconnected and successful-connect events carry exactly one
of the three variants; the one exception is the read-error path, whose
single event carries the error description together with connected = false
and no message. -/
theorem event_variants_amended :
    (∀ (client_id : String) (buf : Bytes) (reg : Registry)
      (rs : List ReadResult),
      ∀ ev ∈ (runReadTask client_id buf reg rs).1,
        ev.id = client_id ∧
        (exactlyOneVariant ev.event = true ∨
          (ev.event.message = none ∧ ev.event.error.isSome = true ∧
            ev.event.connected = some false))) ∧
    (∀ (client_id : String) (address : List Char)
      (tcp tlsBuild tlsShake : Except String Unit) (reg : Registry),
      ∀ ev ∈ (connect client_id address tcp tlsBuild tlsShake reg).events,
        ev.id = client_id ∧ exactlyOneVariant ev.event = true) := by
  constructor
  · intro client_id buf reg rs
    induction rs generalizing buf reg with
    | nil =>
      intro ev hev
      simp [runReadTask] at hev
    | cons r rest ih =>
      intro ev hev
      rw [runReadTask_cons] at hev
      cases r with
      | failed e =>
        simp only [readTaskStep] at hev
        simp at hev
        subst hev
        exact ⟨rfl, Or.inr ⟨rfl, rfl, rfl⟩⟩
      | ok bytes =>
        by_cases hb : bytes.isEmpty
        · simp only [readTaskStep, hb, if_true] at hev
          by_cases hbuf : buf.isEmpty
          · simp [hbuf] at hev
            subst hev
            exact ⟨rfl, Or.inl rfl⟩
          · simp [hbuf] at hev
            rcases hev with h1 | h2
            · subst h1
              exact ⟨rfl, Or.inl rfl⟩
            · subst h2
              exact ⟨rfl, Or.inl rfl⟩
        · simp only [readTaskStep, hb, Bool.false_eq_true, if_false, if_true,
            List.mem_append] at hev
          rcases hev with h1 | h2
          · rw [List.mem_map] at h1
            obtain ⟨f, hf, hfe⟩ := h1
            subst hfe
            exact ⟨rfl, Or.inl rfl⟩
          · exact ih _ _ ev h2
  · intro client_id address tcp tlsBuild tlsShake reg ev hev
    cases hp : parse_address address with
    | error e => simp [connect, hp] at hev
    | ok v =>
      obtain ⟨use_tls, host, port⟩ := v
      cases tcp with
      | error e => simp [connect, hp] at hev
      | ok u =>
        cases use_tls with
        | false =>
          simp [connect, hp] at hev
          subst hev
          exact ⟨rfl, rfl⟩
        | true =>
          cases tlsBuild with
          | error e => simp [connect, hp] at hev
          | ok u2 =>
            cases tlsShake with
            | error e => simp [connect, hp] at hev
            | ok u3 =>
              simp [connect, hp] at hev
              subst hev
              exact ⟨rfl, rfl⟩

theorem event_variants_amended_witness :
    (⟨"c", ⟨some [65, 13, 10], none, none⟩⟩ : ReceivedPayload).id = "c" ∧
    (exactlyOneVariant
        (⟨"c", ⟨some [65, 13, 10], none, none⟩⟩ : ReceivedPayload).event = true ∨
      ((⟨"c", ⟨some [65, 13, 10], none, none⟩⟩ :
          ReceivedPayload).event.message = none ∧
        (⟨"c", ⟨some [65, 13, 10], none, none⟩⟩ :
          ReceivedPayload).event.error.isSome = true ∧
        (⟨"c", ⟨some [65, 13, 10], none, none⟩⟩ :
          ReceivedPayload).event.connected = some false)) :=
  event_variants_amended.1 "c" [] [] [.ok [65, 13, 10]]
    ⟨"c", ⟨some [65, 13, 10], none, none⟩⟩ (by decide)

end ObsidianIRC
